import Mathlib

/-!
Verification of the NetworkManager policy engine (src/nm-policy.c).

This file gives a shallow embedding of the policy engine's decision logic:
the per-family default-route selection (update_ip4_routing / update_ip6_routing
and their shared helper update_default_ac), the retry ledger
(the FAILED branch of device_state_changed and reset_connections_retries),
the secondary-connection orchestrator (process_secondaries and the SECONDARIES
branch of device_state_changed), the hostname controller (_set_hostname and
update_system_hostname), and the connection-removal deactivation walk
(_deactivate_if_active, connection_removed, connection_visibility_changed).

External collaborators (manager, settings store, DNS manager, resolver,
kernel) are modelled as inputs and as emitted actions: a query result the C
code obtains from a collaborator becomes a function argument, and a call the
C code makes into a collaborator becomes a value in the function's result.
GObject pointers become Nat handles; NULL-able pointers become Option.
-/

namespace NMPolicy

/-- Device states of the NM device state machine (NMDeviceState), with the
numeric codes used by the C enum so that range comparisons such as
"PREPARE <= old_state <= ACTIVATED" can be translated literally. -/
inductive DeviceState
  | unknown
  | unmanaged
  | unavailable
  | disconnected
  | prepare
  | config
  | needAuth
  | ipConfig
  | ipCheck
  | secondaries
  | activated
  | deactivating
  | failed
  deriving DecidableEq, Repr

/-- Numeric code of a device state (values of the NMDeviceState C enum). -/
def DeviceState.code : DeviceState → Nat
  | .unknown => 0
  | .unmanaged => 10
  | .unavailable => 20
  | .disconnected => 30
  | .prepare => 40
  | .config => 50
  | .needAuth => 60
  | .ipConfig => 70
  | .ipCheck => 80
  | .secondaries => 90
  | .activated => 100
  | .deactivating => 110
  | .failed => 120

/-- The subset of NMDeviceStateReason values the policy engine uses. -/
inductive Reason
  | reasonNone
  | noSecrets
  | userRequested
  | carrier
  | connectionRemoved
  | secondaryConnectionFailed
  deriving DecidableEq, Repr

/-!
### update_default_ac (src/nm-policy.c:413-434)

The C function walks the manager's list of active connections and calls
set_active_func(ac, FALSE) on every element that is not the chosen best, and
afterwards calls set_active_func(best, TRUE) if best is non-NULL.

We model the list of active connections by the list of their family-default
flags; the chosen best connection is identified by its position in the list
(pointer identity in C), as an Option Nat (NULL becomes none, and an index
not smaller than the list length corresponds to a best object that is not an
element of the list).
-/

/-- The clearing loop of update_default_ac, processing the sessions from
index i on: every session other than the one at index b (for best = some b)
has its family-default flag set to FALSE. -/
def clearNonBest (best : Option Nat) : List Bool → Nat → List Bool
  | [], _ => []
  | f :: rest, i => (if best = some i then f else false) :: clearNonBest best rest (i + 1)

/-- update_default_ac: first clear the family-default flag on every active
connection that is not the new best one, then mark the best one (if any). -/
def update_default_ac (flags : List Bool) (best : Option Nat) : List Bool :=
  let cleared := clearNonBest best flags 0
  match best with
  | none => cleared
  | some b => cleared.set b true

/-- The intermediate state of update_default_ac after its clearing loop has
processed the first k active connections (and before the best one is
marked). k = flags.length gives the state the marking step starts from. -/
def update_default_ac_stage (flags : List Bool) (best : Option Nat) (k : Nat) : List Bool :=
  clearNonBest best (flags.take k) 0 ++ flags.drop k

/-- Number of active connections currently carrying the family-default flag. -/
def countTrue : List Bool → Nat
  | [] => 0
  | true :: rest => countTrue rest + 1
  | false :: rest => countTrue rest

/-!
### update_ip4_routing / update_ip6_routing (src/nm-policy.c:472-529, 567-624)

The two functions are line-for-line identical up to the IP family (which IP
config a VPN connection is tested for, which default slot is read and
written, which property is notified); we give the common body once and name
the two instances.  Active connections are modelled by the per-family view
the functions consume; devices by Nat handles.
-/

/-- Per-family view of one active connection as consumed by the routing
update: its handle, whether it is a VPN connection, whether it has an IP
config for this family, its device attribution and its family-default flag. -/
structure Session where
  sid : Nat
  isVpn : Bool
  hasIpConfig : Bool
  device : Option Nat
  isDefault : Bool
  deriving DecidableEq, Repr

/-- Result of nm_default_route_manager_ipN_get_best_config when it is
non-NULL: the ip interface name, the best active connection (asserted
non-NULL by the C code), the best device (may be NULL when the family is
tunneled over a device of the other family) and the VPN connection, as the
handle of its active-connection view in the sessions list. -/
structure BestConfig where
  ipIface : String
  bestAc : Nat
  best : Option Nat
  vpn : Option Nat
  deriving DecidableEq, Repr

/-- The per-family slice of the engine state touched by one routing update:
the default device slot for the family and the active connections list. -/
structure RoutingState where
  defaultDevice : Option Nat
  sessions : List Session
  deriving DecidableEq, Repr

/-- The VPN-attribution loop: every VPN active connection that has an IP
config for this family and no device attribution is attributed to best. -/
def attributeVpns (sessions : List Session) (best : Nat) : List Session :=
  sessions.map (fun s =>
    if s.isVpn = true ∧ s.hasIpConfig = true ∧ s.device = none then
      { s with device := some best }
    else s)

/-- nm_active_connection_get_device of the session with handle v. -/
def sessionDevice (sessions : List Session) (v : Nat) : Option Nat :=
  match sessions.find? (fun s => s.sid = v) with
  | some s => s.device
  | none => none

/-- The sessions list after the VPN-attribution loop (which only runs when
best is non-NULL). -/
def routing_attributed (sessions : List Session) (best : Option Nat) : List Session :=
  match best with
  | some b => attributeVpns sessions b
  | none => sessions

/-- The spec's effective_default (section 4.1 step 3), which coincides with
the C code's default_device local: the VPN's attributed device when a VPN
session is present, the best device otherwise. -/
def effective_default (sessions : List Session) (best : Option Nat) (vpn : Option Nat) :
    Option Nat :=
  match vpn with
  | some v => sessionDevice sessions v
  | none => best

/-- update_default_ac as invoked by the routing update, acting on the session
views: clear the family-default flag on every session other than the best
active connection, then mark the best one. -/
def update_default_ac_sessions (sessions : List Session) (best : Nat) : List Session :=
  sessions.map (fun s =>
    if s.sid = best then { s with isDefault := true } else { s with isDefault := false })

/-- Common body of update_ip4_routing and update_ip6_routing.  q is the
result of get_best_ipN_config (none for NULL).  Returns the new per-family
state and whether the PROP_DEFAULT_IPN_DEVICE property change was notified.
The C code computes the attributed sessions (its connections loop), the
default_device local (here effective_default) and the update_default_ac call
in this order; the final early return keeps the slot untouched exactly when
default_device already equals it. -/
def update_ip_routing (st : RoutingState) (force : Bool) (q : Option BestConfig) :
    RoutingState × Bool :=
  match q with
  | none =>
    ({ st with defaultDevice := none }, st.defaultDevice.isSome)
  | some r =>
    if force = false ∧ r.best.isSome = true ∧ r.best = st.defaultDevice then
      (st, false)
    else if effective_default (routing_attributed st.sessions r.best) r.best r.vpn
        = st.defaultDevice then
      ({ st with
          sessions := update_default_ac_sessions (routing_attributed st.sessions r.best) r.bestAc },
       false)
    else
      ({ st with
          sessions := update_default_ac_sessions (routing_attributed st.sessions r.best) r.bestAc,
          defaultDevice := effective_default (routing_attributed st.sessions r.best) r.best r.vpn },
       true)

/-- update_ip4_routing (src/nm-policy.c:472-529). -/
def update_ip4_routing : RoutingState → Bool → Option BestConfig → RoutingState × Bool :=
  update_ip_routing

/-- update_ip6_routing (src/nm-policy.c:567-624), identical to
update_ip4_routing up to the IP family of the consumed views. -/
def update_ip6_routing : RoutingState → Bool → Option BestConfig → RoutingState × Bool :=
  update_ip_routing

/-!
### Retry ledger (src/nm-policy.c:1260-1292 and 1072-1110)

The ledger cell of a settings connection holds its autoconnect retries
counter, blocked reason and retry timestamp; the policy engine accesses them
through getter/setter pairs on the connection object.
-/

/-- Retry-ledger cell of one settings connection: retries counter, blocked
reason and autoconnect retry timestamp (monotonic seconds, 0 = unset). -/
structure ConnLedger where
  retries : Nat
  blockedReason : Reason
  retryTime : Int
  deriving DecidableEq, Repr

/-- The default autoconnect retries count restored by a reset
(spec section 8, scenario 5: a fresh configuration has retries = 4). -/
def AUTOCONNECT_RETRIES_DEFAULT : Nat := 4

/-- Modelled from the spec: nm_settings_connection_reset_autoconnect_retries
lives in nm-settings-connection.c, which is not part of src/.  Per spec
section 4.4 ("if deadline <= now reset its retries and clear the blocked
reason"), the reset restores the retry budget and clears the blocked reason;
the consumed deadline is cleared with it. -/
def resetAutoconnectRetries (c : ConnLedger) : ConnLedger :=
  { c with
    retries := AUTOCONNECT_RETRIES_DEFAULT
    blockedReason := Reason.reasonNone
    retryTime := 0 }

/-- The NM_DEVICE_STATE_FAILED branch of device_state_changed
(src/nm-policy.c:1260-1292).  conn is the device's settings connection's
ledger cell (none for no known configuration), timerScheduled tells whether
priv->reset_retries_id is already non-zero, now is
nm_utils_get_monotonic_timestamp_s.  Returns the new ledger cell, the delay
in seconds of a newly scheduled reset timer (none if none was scheduled) and
whether nm_connection_clear_secrets was called. -/
def device_state_changed_failed (conn : Option ConnLedger) (oldState : DeviceState)
    (reason : Reason) (timerScheduled : Bool) (now : Int) :
    Option ConnLedger × Option Int × Bool :=
  match conn with
  | none => (none, none, false)
  | some c =>
    if 40 ≤ oldState.code ∧ oldState.code ≤ 100 then
      let c1 :=
        if reason = Reason.noSecrets then { c with blockedReason := Reason.noSecrets }
        else if 0 < c.retries then { c with retries := c.retries - 1 }
        else c
      let timer :=
        if c1.retries = 0 ∧ timerScheduled = false then some (max 0 (c1.retryTime - now))
        else none
      (some c1, timer, true)
    else (some c, none, false)

/-- The loop of reset_connections_retries (src/nm-policy.c:1086-1098),
threading the running minimum stamp (0 = none yet) and the changed flag. -/
def rcr_loop (now : Int) : List ConnLedger → Int → Bool → List ConnLedger × Int × Bool
  | [], minStamp, changed => ([], minStamp, changed)
  | c :: rest, minStamp, changed =>
    if c.retryTime = 0 then
      let r := rcr_loop now rest minStamp changed
      (c :: r.1, r.2)
    else if c.retryTime ≤ now then
      let r := rcr_loop now rest minStamp true
      (resetAutoconnectRetries c :: r.1, r.2)
    else if minStamp = 0 ∨ c.retryTime < minStamp then
      let r := rcr_loop now rest c.retryTime changed
      (c :: r.1, r.2)
    else
      let r := rcr_loop now rest minStamp changed
      (c :: r.1, r.2)

/-- The minimum-stamp accumulator of the loop: take the new stamp when no
stamp is held yet (0) or when the new stamp is smaller. -/
def rcrMin (acc s : Int) : Int :=
  if acc = 0 ∨ s < acc then s else acc

/-- reset_connections_retries (src/nm-policy.c:1072-1110): walk every
configuration, reset the ones whose deadline has passed, track the minimum
remaining deadline.  Returns the new ledger cells, the delay of the re-armed
timer (none if no stamp remained) and whether schedule_activate_all was
requested. -/
def reset_connections_retries (conns : List ConnLedger) (now : Int) :
    List ConnLedger × Option Int × Bool :=
  let r := rcr_loop now conns 0 false
  (r.1, if r.2.1 ≠ 0 then some (r.2.1 - now) else none, r.2.2)

/-- The deadlines still in the future among the ledger cells: the stamps the
loop's minimum tracking ranges over. -/
def futureStamps (conns : List ConnLedger) (now : Int) : List Int :=
  conns.filterMap (fun c =>
    if c.retryTime ≠ 0 ∧ now < c.retryTime then some c.retryTime else none)

/-!
### process_secondaries (src/nm-policy.c:877-933)

A SecondaryWait record pins a device to the list of its still-pending
secondary active connections.  Device-state transitions requested through
nm_device_state_changed are returned as emitted actions; the states of the
devices are read from a snapshot function.

In the connected branch the C inner loop keeps walking the (mutated) list
after a removal and g_slist_remove removes one occurrence per match, so its
observable effect on the record is the removal of every occurrence of the
session; the record is dropped exactly when the removal empties the list.
-/

/-- A pending-secondaries record: the base device and the secondary active
connections still being waited for. -/
structure SecondaryWait where
  device : Nat
  secondaries : List Nat
  deriving DecidableEq, Repr

/-- A device state transition emitted through nm_device_state_changed. -/
structure DevTransition where
  device : Nat
  state : DeviceState
  reason : Reason
  deriving DecidableEq, Repr

/-- process_secondaries: devSt is the snapshot of nm_device_get_state,
active the session whose state changed, connected whether it reached
ACTIVATED (true) or DEACTIVATED (false).  Returns the surviving records and
the emitted device transitions. -/
def process_secondaries (devSt : Nat → DeviceState) (pending : List SecondaryWait)
    (active : Nat) (connected : Bool) : List SecondaryWait × List DevTransition :=
  match pending with
  | [] => ([], [])
  | r :: rest =>
    let res := process_secondaries devSt rest active connected
    if active ∈ r.secondaries then
      if connected then
        let remaining := r.secondaries.filter (fun s => s ≠ active)
        if remaining.isEmpty then
          (res.1,
           (if devSt r.device = DeviceState.secondaries then
              [⟨r.device, DeviceState.activated, Reason.reasonNone⟩]
            else []) ++ res.2)
        else ({ r with secondaries := remaining } :: res.1, res.2)
      else
        (res.1,
         (if devSt r.device = DeviceState.secondaries ∨ devSt r.device = DeviceState.activated then
            [⟨r.device, DeviceState.failed, Reason.secondaryConnectionFailed⟩]
          else []) ++ res.2)
    else (r :: res.1, res.2)

/-- Effect of the connected inner loop on one record: every occurrence of the
session is removed; none marks the record as deleted (its list emptied). -/
def secondariesStepConnected (active : Nat) (w : SecondaryWait) : Option SecondaryWait :=
  if active ∈ w.secondaries then
    if (w.secondaries.filter (fun s => s ≠ active)).isEmpty then none
    else some { w with secondaries := w.secondaries.filter (fun s => s ≠ active) }
  else some w

/-- Records whose wait list empties while their device still sits in
SECONDARIES: exactly these emit the ACTIVATED/NONE transition. -/
def secondariesDoneRecord (devSt : Nat → DeviceState) (active : Nat) (w : SecondaryWait) :
    Bool :=
  decide (active ∈ w.secondaries) &&
  (w.secondaries.filter (fun s => s ≠ active)).isEmpty &&
  decide (devSt w.device = DeviceState.secondaries)

/-- Records containing the failed session whose device still sits in
SECONDARIES or ACTIVATED: exactly these emit the FAILED transition. -/
def secondariesFailRecord (devSt : Nat → DeviceState) (active : Nat) (w : SecondaryWait) :
    Bool :=
  decide (active ∈ w.secondaries) &&
  decide (devSt w.device = DeviceState.secondaries ∨ devSt w.device = DeviceState.activated)

/-- Records untouched by a failed session: the ones not containing it. -/
def secondariesKeepRecord (active : Nat) (w : SecondaryWait) : Bool :=
  decide (active ∉ w.secondaries)

/-!
### Hostname controller (src/nm-policy.c:158-255 and 284-411)

_set_hostname's calls into the DNS manager and the settings layer are
returned as emitted actions; the gethostname syscall becomes the
kernelHostname argument (none for a failing gethostname).
-/

/-- The literal fallback hostname. -/
def FALLBACK_HOSTNAME4 : String := "localhost.localdomain"

/-- The hostname slice of the engine state. -/
structure HostnameState where
  origHostname : Option String
  curHostname : Option String
  hostnameChanged : Bool
  lookupAddr : Option Nat
  deriving DecidableEq, Repr

/-- Calls _set_hostname makes into its collaborators, in order. -/
inductive HostAction
  | dnsSetHostname (h : Option String)
  | setTransientHostname (name : String)
  deriving DecidableEq, Repr

/-- The name pushed towards the kernel: the fallback literal for a NULL (or,
behind a g_warn_if_reached, empty) candidate, the candidate otherwise. -/
def effectiveName : Option String → String
  | none => FALLBACK_HOSTNAME4
  | some s => if s = "" then FALLBACK_HOSTNAME4 else s

/-- The lookup-address clearing at the top of _set_hostname: a non-NULL
candidate clears the stored reverse-lookup address. -/
def set_hostname_clear_lookup (st : HostnameState) (newHostname : Option String) :
    HostnameState :=
  if newHostname.isSome = true then { st with lookupAddr := none } else st

/-- The state-update ladder of _set_hostname (src/nm-policy.c:205-224): the
first-attempt-equals-orig_hostname and equals-cur_hostname cases touch
nothing; otherwise cur_hostname is updated, hostname_changed latches and the
DNS manager is told the new hostname. -/
def set_hostname_update (st1 : HostnameState) (newHostname : Option String) :
    HostnameState × List HostAction :=
  if st1.origHostname.isSome = true ∧ st1.hostnameChanged = false
      ∧ st1.origHostname = newHostname then
    (st1, [])
  else if st1.curHostname = newHostname then
    (st1, [])
  else
    ({ st1 with curHostname := newHostname, hostnameChanged := true },
     [HostAction.dnsSetHostname newHostname])

/-- _set_hostname (src/nm-policy.c:183-255): clear the lookup address, run
the state-update ladder, then push the effective name to the settings
layer's transient-hostname setter unless gethostname (the kernelHostname
argument; none = the syscall failed) already reports that very name. -/
def _set_hostname (st : HostnameState) (newHostname : Option String)
    (kernelHostname : Option String) : HostnameState × List HostAction :=
  match kernelHostname with
  | some old =>
    if effectiveName newHostname = old then
      set_hostname_update (set_hostname_clear_lookup st newHostname) newHostname
    else
      ((set_hostname_update (set_hostname_clear_lookup st newHostname) newHostname).1,
       (set_hostname_update (set_hostname_clear_lookup st newHostname) newHostname).2
         ++ [HostAction.setTransientHostname (effectiveName newHostname)])
  | none =>
    ((set_hostname_update (set_hostname_clear_lookup st newHostname) newHostname).1,
     (set_hostname_update (set_hostname_clear_lookup st newHostname) newHostname).2
       ++ [HostAction.setTransientHostname (effectiveName newHostname)])

/-- g_ascii_isspace: space, tab, line feed, vertical tab, form feed and
carriage return. -/
def isAsciiSpace (c : Char) : Bool :=
  c = ' ' ∨ c = '\t' ∨ c = '\n' ∨ c = Char.ofNat 11 ∨ c = Char.ofNat 12 ∨ c = '\r'

/-- The per-device inputs of update_system_hostname: the dhcp config's
host_name option (none when there is no DHCP config or no such option; the
value as a character list, since the C code scans it character-wise) and the
addresses of the device's IP config ([] when there is no config). -/
structure DevView where
  dhcpHostname : Option (List Char)
  ipAddrs : List Nat
  deriving DecidableEq, Repr

/-- The decision update_system_hostname arrives at: which rung of the
precedence ladder produced the hostname, or which terminal fallback ran. -/
inductive HostnameDecision
  | fromConfig (h : String)
  | fromDhcp4 (h : List Char)
  | fromDhcp6 (h : List Char)
  | fromStartup (h : String)
  | noDefaultDevice
  | startLookup (addr : Nat)
  | noIpConfig
  deriving DecidableEq, Repr

/-- First address of a device's IP config, if any. -/
def firstAddr (d : Option DevView) : Option Nat :=
  match d with
  | some dv => dv.ipAddrs.head?
  | none => none

/-- Rungs 3 and 4 of the ladder (src/nm-policy.c:372-410): the startup
hostname if any, else reverse-DNS of the first IPv4 address of best4, else of
the first IPv6 address of best6, else the no-IP-config fallback. -/
def hostname_step34 (best4 best6 : Option DevView) (orig : Option String) : HostnameDecision :=
  match orig with
  | some o => HostnameDecision.fromStartup o
  | none =>
    match firstAddr best4 with
    | some a => HostnameDecision.startLookup a
    | none =>
      match firstAddr best6 with
      | some a => HostnameDecision.startLookup a
      | none => HostnameDecision.noIpConfig

/-- update_system_hostname from the best-device step on
(src/nm-policy.c:318-410), i.e. after the configured-hostname rung declined.
The Bool result reports whether the invalid-DHCP-hostname warning was
logged. -/
def update_system_hostname_auto (best4 best6 : Option DevView) (orig : Option String) :
    HostnameDecision × Bool :=
  if best4 = none ∧ best6 = none then (HostnameDecision.noDefaultDevice, false)
  else
    match best4 with
    | some d4 =>
      match d4.dhcpHostname with
      | some h =>
        if h.isEmpty then (hostname_step34 best4 best6 orig, false)
        else
          match h.dropWhile isAsciiSpace with
          | [] => (hostname_step34 best4 best6 orig, true)
          | c :: cs => (HostnameDecision.fromDhcp4 (c :: cs), false)
      | none => (hostname_step34 best4 best6 orig, false)
    | none =>
      match best6 with
      | some d6 =>
        match d6.dhcpHostname with
        | some h =>
          if h.isEmpty then (hostname_step34 best4 best6 orig, false)
          else
            match h.dropWhile isAsciiSpace with
            | [] => (hostname_step34 best4 best6 orig, true)
            | c :: cs => (HostnameDecision.fromDhcp6 (c :: cs), false)
        | none => (hostname_step34 best4 best6 orig, false)
      | none => (hostname_step34 best4 best6 orig, false)

/-- update_system_hostname (src/nm-policy.c:284-411): the full ladder.
configured is the manager's hostname property, isSpecific the settings
layer's validity predicate nm_utils_is_specific_hostname. -/
def update_system_hostname (configured : Option String) (isSpecific : String → Bool)
    (best4 best6 : Option DevView) (orig : Option String) : HostnameDecision × Bool :=
  match configured with
  | some c =>
    if isSpecific c then (HostnameDecision.fromConfig c, false)
    else update_system_hostname_auto best4 best6 orig
  | none => update_system_hostname_auto best4 best6 orig

/-!
### SECONDARIES branch of device_state_changed (src/nm-policy.c:1366-1380)
and the connection-removal walk (src/nm-policy.c:1801-1850)
-/

/-- The slice of a settings connection the SECONDARIES branch consumes: its
list of secondary UUIDs. -/
structure ConnView where
  secondaries : List String
  deriving DecidableEq, Repr

/-- What the SECONDARIES branch did: whether update_routing_and_dns ran,
which state (if any) was queued on the device via nm_device_queue_state, and
whether activate_secondary_connections ran (only it can create a
SecondaryWait record). -/
structure SecBranchResult where
  ranRoutingUpdate : Bool
  queuedState : Option (DeviceState × Reason)
  ranActivateSecondaries : Bool
  deriving DecidableEq, Repr

/-- The NM_DEVICE_STATE_SECONDARIES branch of device_state_changed.  conn is
the device's settings connection view (none when the device has no known
configuration), activateOk the success of activate_secondary_connections. -/
def device_state_changed_secondaries (conn : Option ConnView) (activateOk : Bool) :
    SecBranchResult :=
  match conn with
  | none => ⟨false, some (DeviceState.activated, Reason.reasonNone), false⟩
  | some c =>
    if 0 < c.secondaries.length then
      ⟨true,
       if activateOk then none
       else some (DeviceState.failed, Reason.secondaryConnectionFailed),
       true⟩
    else ⟨false, some (DeviceState.activated, Reason.reasonNone), false⟩

/-- States of an active connection (NMActiveConnectionState). -/
inductive ACState
  | acUnknown
  | acActivating
  | acActivated
  | acDeactivating
  | acDeactivated
  deriving DecidableEq, Repr

/-- Numeric code of an active-connection state (C enum values). -/
def ACState.code : ACState → Nat
  | .acUnknown => 0
  | .acActivating => 1
  | .acActivated => 2
  | .acDeactivating => 3
  | .acDeactivated => 4

/-- The slice of an active connection _deactivate_if_active consumes. -/
structure ACView where
  acId : Nat
  settingsConn : Nat
  state : ACState
  deriving DecidableEq, Repr

/-- The per-session condition of the walk: the session's settings connection
is the removed one and its state is at most ACTIVATED. -/
def deactivateMatch (conn : Nat) (ac : ACView) : Bool :=
  decide (ac.settingsConn = conn ∧ ac.state.code ≤ 2)

/-- _deactivate_if_active (src/nm-policy.c:1801-1826): walk the active
connections; every one whose settings connection is the removed one and
whose state is at most ACTIVATED gets a deactivate request with reason
CONNECTION_REMOVED.  deactivateOk models the success of each
nm_manager_deactivate_connection call; a failure is logged (second result
component) and never stops the walk.  Returns (requests, failures logged). -/
def _deactivate_if_active (deactivateOk : Nat → Bool) (active : List ACView) (conn : Nat) :
    List (Nat × Reason) × List Nat :=
  match active with
  | [] => ([], [])
  | ac :: rest =>
    let r := _deactivate_if_active deactivateOk rest conn
    if ac.settingsConn = conn ∧ ac.state.code ≤ 2 then
      ((ac.acId, Reason.connectionRemoved) :: r.1,
       if deactivateOk ac.acId then r.2 else ac.acId :: r.2)
    else r

/-- connection_removed (src/nm-policy.c:1828-1836): delegate to
_deactivate_if_active. -/
def connection_removed (deactivateOk : Nat → Bool) (active : List ACView) (conn : Nat) :
    List (Nat × Reason) × List Nat :=
  _deactivate_if_active deactivateOk active conn

/-- What connection_visibility_changed did. -/
inductive VisibilityAction
  | scheduleActivateAll
  | deactivate (requests : List (Nat × Reason)) (failuresLogged : List Nat)
  deriving DecidableEq, Repr

/-- connection_visibility_changed (src/nm-policy.c:1838-1850): schedule a
full activate-all scan when the connection became visible, deactivate its
active sessions otherwise. -/
def connection_visibility_changed (deactivateOk : Nat → Bool) (active : List ACView)
    (conn : Nat) (visible : Bool) : VisibilityAction :=
  if visible then VisibilityAction.scheduleActivateAll
  else
    let r := _deactivate_if_active deactivateOk active conn
    VisibilityAction.deactivate r.1 r.2

end NMPolicy

namespace NMPolicy

theorem countTrue_clearNonBest_none (l : List Bool) : ∀ i, countTrue (clearNonBest none l i) = 0 := by
  induction l with
  | nil => intro i; simp [clearNonBest, countTrue]
  | cons f rest ih => intro i; simp [clearNonBest, countTrue, ih]

theorem countTrue_clearNonBest_lt (l : List Bool) :
    ∀ i b, b < i → countTrue (clearNonBest (some b) l i) = 0 := by
  induction l with
  | nil => intro i b _; simp [clearNonBest, countTrue]
  | cons f rest ih =>
    intro i b hbi
    have hne : ¬ (b = i) := Nat.ne_of_lt hbi
    simp only [clearNonBest, Option.some.injEq, hne, if_false]
    simpa [countTrue] using ih (i + 1) b (Nat.lt_succ_of_lt hbi)

theorem countTrue_clearNonBest_some (l : List Bool) :
    ∀ i b, countTrue (clearNonBest (some b) l i) ≤ 1 := by
  induction l with
  | nil => intro i b; simp [clearNonBest, countTrue]
  | cons f rest ih =>
    intro i b
    by_cases hbi : b = i
    · subst hbi
      simp only [clearNonBest, Option.some.injEq, if_pos rfl]
      have htail := countTrue_clearNonBest_lt rest (b + 1) b (Nat.lt_succ_self b)
      cases f <;> simp [countTrue, htail]
    · simp only [clearNonBest, Option.some.injEq, hbi, if_false]
      simpa [countTrue] using ih (i + 1) b

theorem countTrue_set_clearNonBest (l : List Bool) :
    ∀ i j b, i + j = b → countTrue ((clearNonBest (some b) l i).set j true) ≤ 1 := by
  induction l with
  | nil => intro i j b _; simp [clearNonBest, countTrue, List.set]
  | cons f rest ih =>
    intro i j b hij
    cases j with
    | zero =>
      have hbi : b = i := by omega
      subst hbi
      simp only [clearNonBest, Option.some.injEq, if_pos rfl, List.set]
      have htail := countTrue_clearNonBest_lt rest (b + 1) b (Nat.lt_succ_self b)
      simp [countTrue, htail]
    | succ k =>
      have hne : ¬ (b = i) := by omega
      simp only [clearNonBest, Option.some.injEq, hne, if_false, List.set]
      simpa [countTrue] using ih (i + 1) k b (by omega)

theorem countTrue_clearNonBest_le (l : List Bool) :
    ∀ best i, countTrue (clearNonBest best l i) ≤ countTrue l := by
  induction l with
  | nil => intro best i; simp [clearNonBest]
  | cons f rest ih =>
    intro best i
    simp only [clearNonBest]
    by_cases h : best = some i
    · rw [if_pos h]
      cases f
      · simpa [countTrue] using ih best (i + 1)
      · simpa [countTrue] using ih best (i + 1)
    · rw [if_neg h]
      cases f
      · simpa [countTrue] using ih best (i + 1)
      · simp only [countTrue]
        exact Nat.le_trans (ih best (i + 1)) (Nat.le_succ _)

theorem countTrue_append (l₁ l₂ : List Bool) :
    countTrue (l₁ ++ l₂) = countTrue l₁ + countTrue l₂ := by
  induction l₁ with
  | nil => simp [countTrue]
  | cons f rest ih =>
    cases f
    · show countTrue (false :: (rest ++ l₂)) = countTrue (false :: rest) + countTrue l₂
      simp only [countTrue]
      exact ih
    · show countTrue (true :: (rest ++ l₂)) = countTrue (true :: rest) + countTrue l₂
      simp only [countTrue]
      rw [ih]
      omega

/-- C2: after any single run of update_default_ac, at most one active session
carries the family's default flag; and at every intermediate point of the run
(each prefix of the clearing loop, given that the invariant held on entry,
and the final marking step unconditionally) at most one session carries it,
because the flag is first cleared on every session other than the chosen one
and only then set on the chosen one. -/
theorem C2_update_default_ac_at_most_one (flags : List Bool) (best : Option Nat) :
    countTrue (update_default_ac flags best) ≤ 1 ∧
    (countTrue flags ≤ 1 →
      ∀ k, countTrue (update_default_ac_stage flags best k) ≤ 1) := by
  constructor
  · unfold update_default_ac
    cases best with
    | none => simp [countTrue_clearNonBest_none]
    | some b => exact countTrue_set_clearNonBest flags 0 b b (by omega)
  · intro hinv k
    unfold update_default_ac_stage
    calc countTrue (clearNonBest best (flags.take k) 0 ++ flags.drop k)
        = countTrue (clearNonBest best (flags.take k) 0) + countTrue (flags.drop k) :=
          countTrue_append _ _
      _ ≤ countTrue (flags.take k) + countTrue (flags.drop k) :=
          Nat.add_le_add_right (countTrue_clearNonBest_le _ best 0) _
      _ = countTrue (flags.take k ++ flags.drop k) := (countTrue_append _ _).symm
      _ = countTrue flags := by rw [List.take_append_drop]
      _ ≤ 1 := hinv

/-- Witness for C2 at a concrete input: three sessions of which the first and
third carry the flag, best = the second; and an intermediate point of a run
on a two-session list that satisfies the invariant on entry. -/
theorem C2_update_default_ac_at_most_one_witness :
    countTrue (update_default_ac [true, false, true] (some 1)) ≤ 1 ∧
    countTrue (update_default_ac_stage [true, false] (some 0) 1) ≤ 1 :=
  ⟨(C2_update_default_ac_at_most_one [true, false, true] (some 1)).1,
   (C2_update_default_ac_at_most_one [true, false] (some 0)).2 (by decide) 1⟩

/-- C1 fails as stated: on a NULL best configuration the routing update does
not clear the family-default flag on the active sessions.  Concrete input:
one active session carrying the flag and a previously non-null slot; after
the update the session still carries the flag (for both families). -/
theorem C1_counterexample :
    ((update_ip4_routing ⟨some 7, [⟨1, false, false, some 7, true⟩]⟩ false none).1.sessions.map
        Session.isDefault = [true]) ∧
    ((update_ip6_routing ⟨some 7, [⟨1, false, false, some 7, true⟩]⟩ false none).1.sessions.map
        Session.isDefault = [true]) :=
  ⟨rfl, rfl⟩

/-- C1 (amended): for each IP family, when the default-route manager reports
no best configuration, the routing update clears the engine's stored default
device slot for that family and emits a property-change notification exactly
when the slot was previously non-null; it performs no other state change (in
particular the family-default flags on the active sessions are left
untouched). -/
theorem C1_null_best_clears_slot (st : RoutingState) (force : Bool) :
    update_ip4_routing st force none
        = ({ st with defaultDevice := none }, st.defaultDevice.isSome) ∧
    update_ip6_routing st force none
        = ({ st with defaultDevice := none }, st.defaultDevice.isSome) :=
  ⟨rfl, rfl⟩

theorem update_ip_routing_default_of_not_early (st : RoutingState) (force : Bool)
    (r : BestConfig)
    (h : ¬ (force = false ∧ r.best.isSome = true ∧ r.best = st.defaultDevice)) :
    (update_ip_routing st force (some r)).1.defaultDevice
      = effective_default (routing_attributed st.sessions r.best) r.best r.vpn := by
  unfold update_ip_routing
  dsimp only
  rw [if_neg h]
  by_cases hd :
      effective_default (routing_attributed st.sessions r.best) r.best r.vpn = st.defaultDevice
  · rw [if_pos hd]
    exact hd.symm
  · rw [if_neg hd]

/-- C3: when the best device is null but a VPN session is present, the
routing update still ends with the stored default device slot equal to the
VPN session's attributed device; and in general (whenever the
unchanged-best early return does not fire) the slot ends up equal to
effective_default: the VPN's attributed device when a VPN session is
present, the best device otherwise. -/
theorem C3_vpn_effective_default (st : RoutingState) (force : Bool) (r : BestConfig) :
    (∀ v, r.best = none → r.vpn = some v →
      (update_ip4_routing st force (some r)).1.defaultDevice = sessionDevice st.sessions v ∧
      (update_ip6_routing st force (some r)).1.defaultDevice = sessionDevice st.sessions v) ∧
    (¬ (force = false ∧ r.best.isSome = true ∧ r.best = st.defaultDevice) →
      (update_ip4_routing st force (some r)).1.defaultDevice
          = effective_default (routing_attributed st.sessions r.best) r.best r.vpn ∧
      (update_ip6_routing st force (some r)).1.defaultDevice
          = effective_default (routing_attributed st.sessions r.best) r.best r.vpn) := by
  constructor
  · intro v hbest hvpn
    have hne : ¬ (force = false ∧ r.best.isSome = true ∧ r.best = st.defaultDevice) := by
      intro hc
      rw [hbest] at hc
      exact absurd hc.2.1 (by simp)
    have h4 := update_ip_routing_default_of_not_early st force r hne
    rw [hbest, hvpn] at h4
    exact ⟨h4, h4⟩
  · intro hne
    have h4 := update_ip_routing_default_of_not_early st force r hne
    exact ⟨h4, h4⟩

/-- Witness for C3 at a concrete input: a single VPN session attributed to
device 9, best device null, not forced; the slot ends as device 9. -/
theorem C3_vpn_effective_default_witness :
    (update_ip4_routing ⟨some 3, [⟨5, true, true, some 9, false⟩]⟩ false
        (some ⟨"tun0", 5, none, some 5⟩)).1.defaultDevice = some 9 ∧
    (update_ip6_routing ⟨some 3, [⟨5, true, true, some 9, false⟩]⟩ false
        (some ⟨"tun0", 5, none, some 5⟩)).1.defaultDevice = some 9 := by
  have h := (C3_vpn_effective_default ⟨some 3, [⟨5, true, true, some 9, false⟩]⟩ false
      ⟨"tun0", 5, none, some 5⟩).1 5 rfl rfl
  exact ⟨h.1.trans (by decide), h.2.trans (by decide)⟩

/-- C4: on a device failure out of an old state in PREPARE..ACTIVATED with a
known configuration, a NO_SECRETS reason sets the blocked reason to
NO_SECRETS and leaves the retries counter untouched; any other reason
decrements the counter when positive, and when the counter is zero
afterwards a reset timer is scheduled at max(0, retry_deadline - now)
seconds unless one is already scheduled (the if-condition on the right hand
sides); in both cases the cached secrets are cleared (third component). -/
theorem C4_failed_retry_ledger (c : ConnLedger) (oldState : DeviceState) (reason : Reason)
    (timerScheduled : Bool) (now : Int)
    (h1 : 40 ≤ oldState.code) (h2 : oldState.code ≤ 100) :
    (reason = Reason.noSecrets →
      device_state_changed_failed (some c) oldState reason timerScheduled now
        = (some { c with blockedReason := Reason.noSecrets },
           if c.retries = 0 ∧ timerScheduled = false then some (max 0 (c.retryTime - now))
           else none,
           true)) ∧
    (reason ≠ Reason.noSecrets →
      device_state_changed_failed (some c) oldState reason timerScheduled now
        = (some { c with retries := c.retries - 1 },
           if c.retries - 1 = 0 ∧ timerScheduled = false then some (max 0 (c.retryTime - now))
           else none,
           true)) := by
  obtain ⟨cr, cb, ct⟩ := c
  constructor
  · intro hr
    unfold device_state_changed_failed
    dsimp only
    rw [if_pos ⟨h1, h2⟩, if_pos hr]
  · intro hr
    unfold device_state_changed_failed
    dsimp only
    rw [if_pos ⟨h1, h2⟩, if_neg hr]
    by_cases hp : 0 < cr
    · rw [if_pos hp]
    · have h0 : cr = 0 := by omega
      subst h0
      rw [if_neg hp]

/-- Witness for C4 at a concrete input: a connection with one retry left and
deadline 100, failing with reason CARRIER out of IP_CONFIG at time 30 with
no timer scheduled: the counter drops to 0, a timer is scheduled at 70
seconds and the secrets are cleared. -/
theorem C4_failed_retry_ledger_witness :
    device_state_changed_failed (some ⟨1, Reason.reasonNone, 100⟩) DeviceState.ipConfig
        Reason.carrier false 30
      = (some ⟨0, Reason.reasonNone, 100⟩, some 70, true) := by
  have h := (C4_failed_retry_ledger ⟨1, Reason.reasonNone, 100⟩ DeviceState.ipConfig
      Reason.carrier false 30 (by decide) (by decide)).2 (by decide)
  exact h.trans (by decide)

theorem rcr_loop_spec (now : Int) :
    ∀ (conns : List ConnLedger) (m : Int) (ch : Bool),
      rcr_loop now conns m ch
        = (conns.map (fun c =>
              if c.retryTime ≠ 0 ∧ c.retryTime ≤ now then resetAutoconnectRetries c else c),
           List.foldl rcrMin m (futureStamps conns now),
           (ch || conns.any (fun c => decide (c.retryTime ≠ 0 ∧ c.retryTime ≤ now)))) := by
  intro conns
  induction conns with
  | nil => intro m ch; simp [rcr_loop, futureStamps]
  | cons c rest ih =>
    intro m ch
    by_cases h0 : c.retryTime = 0
    · have hnp : ¬ (c.retryTime ≠ 0 ∧ c.retryTime ≤ now) := fun hc => hc.1 h0
      have hnf : ¬ (c.retryTime ≠ 0 ∧ now < c.retryTime) := fun hc => hc.1 h0
      have hstep : rcr_loop now (c :: rest) m ch
          = (c :: (rcr_loop now rest m ch).1, (rcr_loop now rest m ch).2) := by
        show (if c.retryTime = 0 then
              (c :: (rcr_loop now rest m ch).1, (rcr_loop now rest m ch).2)
            else if c.retryTime ≤ now then
              (resetAutoconnectRetries c :: (rcr_loop now rest m true).1,
               (rcr_loop now rest m true).2)
            else if m = 0 ∨ c.retryTime < m then
              (c :: (rcr_loop now rest c.retryTime ch).1, (rcr_loop now rest c.retryTime ch).2)
            else (c :: (rcr_loop now rest m ch).1, (rcr_loop now rest m ch).2)) = _
        rw [if_pos h0]
      rw [hstep, ih]
      rw [show futureStamps (c :: rest) now = futureStamps rest now from by
        simp only [futureStamps, List.filterMap_cons, if_neg hnf]]
      simp [h0]
    · by_cases hle : c.retryTime ≤ now
      · have hp : c.retryTime ≠ 0 ∧ c.retryTime ≤ now := ⟨h0, hle⟩
        have hnf : ¬ (c.retryTime ≠ 0 ∧ now < c.retryTime) :=
          fun hc => absurd hle (not_le.mpr hc.2)
        have hstep : rcr_loop now (c :: rest) m ch
            = (resetAutoconnectRetries c :: (rcr_loop now rest m true).1,
               (rcr_loop now rest m true).2) := by
          show (if c.retryTime = 0 then
                (c :: (rcr_loop now rest m ch).1, (rcr_loop now rest m ch).2)
              else if c.retryTime ≤ now then
                (resetAutoconnectRetries c :: (rcr_loop now rest m true).1,
                 (rcr_loop now rest m true).2)
              else if m = 0 ∨ c.retryTime < m then
                (c :: (rcr_loop now rest c.retryTime ch).1,
                 (rcr_loop now rest c.retryTime ch).2)
              else (c :: (rcr_loop now rest m ch).1, (rcr_loop now rest m ch).2)) = _
          rw [if_neg h0, if_pos hle]
        rw [hstep, ih]
        rw [show futureStamps (c :: rest) now = futureStamps rest now from by
          simp only [futureStamps, List.filterMap_cons, if_neg hnf]]
        simp [hp]
      · have hnp : ¬ (c.retryTime ≠ 0 ∧ c.retryTime ≤ now) := fun hc => hle hc.2
        have hf : c.retryTime ≠ 0 ∧ now < c.retryTime := ⟨h0, not_le.mp hle⟩
        have hstamps : futureStamps (c :: rest) now
            = c.retryTime :: futureStamps rest now := by
          simp only [futureStamps, List.filterMap_cons, if_pos hf]
        by_cases hm : m = 0 ∨ c.retryTime < m
        · have hstep : rcr_loop now (c :: rest) m ch
              = (c :: (rcr_loop now rest c.retryTime ch).1,
                 (rcr_loop now rest c.retryTime ch).2) := by
            show (if c.retryTime = 0 then
                  (c :: (rcr_loop now rest m ch).1, (rcr_loop now rest m ch).2)
                else if c.retryTime ≤ now then
                  (resetAutoconnectRetries c :: (rcr_loop now rest m true).1,
                   (rcr_loop now rest m true).2)
                else if m = 0 ∨ c.retryTime < m then
                  (c :: (rcr_loop now rest c.retryTime ch).1,
                   (rcr_loop now rest c.retryTime ch).2)
                else (c :: (rcr_loop now rest m ch).1, (rcr_loop now rest m ch).2)) = _
            rw [if_neg h0, if_neg hle, if_pos hm]
          have hmin : rcrMin m c.retryTime = c.retryTime := by
            unfold rcrMin
            rw [if_pos hm]
          rw [hstep, ih, hstamps, List.foldl_cons, hmin]
          simp [hle]
        · have hstep : rcr_loop now (c :: rest) m ch
              = (c :: (rcr_loop now rest m ch).1, (rcr_loop now rest m ch).2) := by
            show (if c.retryTime = 0 then
                  (c :: (rcr_loop now rest m ch).1, (rcr_loop now rest m ch).2)
                else if c.retryTime ≤ now then
                  (resetAutoconnectRetries c :: (rcr_loop now rest m true).1,
                   (rcr_loop now rest m true).2)
                else if m = 0 ∨ c.retryTime < m then
                  (c :: (rcr_loop now rest c.retryTime ch).1,
                   (rcr_loop now rest c.retryTime ch).2)
                else (c :: (rcr_loop now rest m ch).1, (rcr_loop now rest m ch).2)) = _
            rw [if_neg h0, if_neg hle, if_neg hm]
          have hmin : rcrMin m c.retryTime = m := by
            unfold rcrMin
            rw [if_neg hm]
          rw [hstep, ih, hstamps, List.foldl_cons, hmin]
          simp [hle]

theorem futureStamps_mem (conns : List ConnLedger) (now : Int) :
    ∀ s ∈ futureStamps conns now, s ≠ 0 ∧ now < s := by
  intro s hs
  unfold futureStamps at hs
  rw [List.mem_filterMap] at hs
  obtain ⟨c, _, heq⟩ := hs
  by_cases h : c.retryTime ≠ 0 ∧ now < c.retryTime
  · rw [if_pos h] at heq
    obtain rfl : c.retryTime = s := Option.some.inj heq
    exact h
  · rw [if_neg h] at heq
    exact absurd heq (by simp)

theorem foldF_spec :
    ∀ (l : List Int) (m : Int), m ≠ 0 → (∀ s ∈ l, s ≠ 0) →
      List.foldl rcrMin m l ∈ m :: l ∧ List.foldl rcrMin m l ≤ m ∧
        ∀ s ∈ l, List.foldl rcrMin m l ≤ s := by
  intro l
  induction l with
  | nil =>
    intro m _ _
    refine ⟨List.mem_singleton.mpr rfl, le_refl m, ?_⟩
    intro s hs
    cases hs
  | cons t rest ih =>
    intro m hm hall
    have ht : t ≠ 0 := hall t (List.mem_cons_self t rest)
    have hstep : List.foldl rcrMin m (t :: rest) = List.foldl rcrMin (rcrMin m t) rest := rfl
    by_cases hlt : t < m
    · have hmt : rcrMin m t = t := by
        unfold rcrMin
        rw [if_pos (Or.inr hlt)]
      rw [hstep, hmt]
      obtain ⟨hmem, hle, hbound⟩ := ih t ht (fun s hs => hall s (List.mem_cons_of_mem _ hs))
      refine ⟨List.mem_cons_of_mem _ hmem, le_trans hle (le_of_lt hlt), ?_⟩
      intro s hs
      rcases List.mem_cons.mp hs with he | hr
      · exact he ▸ hle
      · exact hbound s hr
    · have hmt : rcrMin m t = m := by
        unfold rcrMin
        rw [if_neg (fun hc => hc.elim hm hlt)]
      rw [hstep, hmt]
      obtain ⟨hmem, hle, hbound⟩ := ih m hm (fun s hs => hall s (List.mem_cons_of_mem _ hs))
      refine ⟨?_, hle, ?_⟩
      · rcases List.mem_cons.mp hmem with he | hr
        · exact List.mem_cons.mpr (Or.inl he)
        · exact List.mem_cons_of_mem _ (List.mem_cons_of_mem _ hr)
      · intro s hs
        rcases List.mem_cons.mp hs with he | hr
        · exact he ▸ le_trans hle (le_of_not_lt hlt)
        · exact hbound s hr

theorem foldF_zero (l : List Int) (hall : ∀ s ∈ l, s ≠ 0) (hne : l ≠ []) :
    List.foldl rcrMin 0 l ∈ l ∧ ∀ s ∈ l, List.foldl rcrMin 0 l ≤ s := by
  cases l with
  | nil => exact absurd rfl hne
  | cons t rest =>
    have ht : t ≠ 0 := hall t (List.mem_cons_self t rest)
    have h0 : rcrMin 0 t = t := by
      unfold rcrMin
      rw [if_pos (Or.inl rfl)]
    have hstep : List.foldl rcrMin 0 (t :: rest) = List.foldl rcrMin t rest := by
      rw [List.foldl_cons, h0]
    obtain ⟨hmem, hle, hbound⟩ :=
      foldF_spec rest t ht (fun s hs => hall s (List.mem_cons_of_mem _ hs))
    rw [hstep]
    refine ⟨?_, ?_⟩
    · rcases List.mem_cons.mp hmem with he | hr
      · exact List.mem_cons.mpr (Or.inl he)
      · exact List.mem_cons_of_mem _ hr
    · intro s hs
      rcases List.mem_cons.mp hs with he | hr
      · exact he ▸ hle
      · exact hbound s hr

/-- C5: when the reset timer fires, every configuration with a non-zero
deadline at or before now is reset (spec-modelled reset: retries restored,
blocked reason cleared) and every other configuration is untouched; a full
activate-all re-scan is requested exactly when something was reset; the
timer is not re-armed when no future deadline remains, and otherwise it is
re-armed for the minimum remaining deadline. -/
theorem C5_reset_connections_retries_props (conns : List ConnLedger) (now : Int) :
    ((reset_connections_retries conns now).1
        = conns.map (fun c =>
            if c.retryTime ≠ 0 ∧ c.retryTime ≤ now then resetAutoconnectRetries c else c)) ∧
    ((reset_connections_retries conns now).2.2 = true ↔
        ∃ c ∈ conns, c.retryTime ≠ 0 ∧ c.retryTime ≤ now) ∧
    (futureStamps conns now = [] → (reset_connections_retries conns now).2.1 = none) ∧
    (futureStamps conns now ≠ [] →
        ∃ m, m ∈ futureStamps conns now ∧ (∀ s ∈ futureStamps conns now, m ≤ s) ∧
          (reset_connections_retries conns now).2.1 = some (m - now)) := by
  have h1 : reset_connections_retries conns now
      = (conns.map (fun c =>
            if c.retryTime ≠ 0 ∧ c.retryTime ≤ now then resetAutoconnectRetries c else c),
         (if List.foldl rcrMin 0 (futureStamps conns now) ≠ 0
          then some (List.foldl rcrMin 0 (futureStamps conns now) - now) else none),
         conns.any (fun c => decide (c.retryTime ≠ 0 ∧ c.retryTime ≤ now))) := by
    unfold reset_connections_retries
    rw [rcr_loop_spec now conns 0 false]
    simp
  rw [h1]
  refine ⟨rfl, ?_, ?_, ?_⟩
  · simp [List.any_eq_true]
  · intro hemp
    rw [hemp]
    simp
  · intro hne
    obtain ⟨hmem, hbound⟩ :=
      foldF_zero (futureStamps conns now)
        (fun s hs => (futureStamps_mem conns now s hs).1) hne
    refine ⟨List.foldl rcrMin 0 (futureStamps conns now), hmem, hbound, ?_⟩
    have hM0 : List.foldl rcrMin 0 (futureStamps conns now) ≠ 0 :=
      (futureStamps_mem conns now _ hmem).1
    simp [hM0]

/-- Witness for C5 at a concrete input: two configurations, one expired
deadline (50 at now = 100) and one future deadline (200): the first is
reset, a re-scan is requested, and the timer is re-armed for 200 - 100. -/
theorem C5_reset_connections_retries_props_witness :
    ((reset_connections_retries [⟨0, Reason.noSecrets, 50⟩, ⟨2, Reason.reasonNone, 200⟩] 100).1
        = [⟨4, Reason.reasonNone, 0⟩, ⟨2, Reason.reasonNone, 200⟩]) ∧
    ((reset_connections_retries [⟨0, Reason.noSecrets, 50⟩, ⟨2, Reason.reasonNone, 200⟩] 100).2.2
        = true) ∧
    (∃ m, m ∈ futureStamps [⟨0, Reason.noSecrets, 50⟩, ⟨2, Reason.reasonNone, 200⟩] 100 ∧
      (∀ s ∈ futureStamps [⟨0, Reason.noSecrets, 50⟩, ⟨2, Reason.reasonNone, 200⟩] 100, m ≤ s) ∧
      (reset_connections_retries [⟨0, Reason.noSecrets, 50⟩, ⟨2, Reason.reasonNone, 200⟩] 100).2.1
        = some (m - 100)) := by
  have h := C5_reset_connections_retries_props
      [⟨0, Reason.noSecrets, 50⟩, ⟨2, Reason.reasonNone, 200⟩] 100
  exact ⟨h.1.trans (by decide),
         h.2.1.mpr ⟨⟨0, Reason.noSecrets, 50⟩, by decide, by decide, by decide⟩,
         h.2.2.2 (by decide)⟩

theorem process_secondaries_cons (devSt : Nat → DeviceState) (active : Nat)
    (r : SecondaryWait) (rest : List SecondaryWait) (connected : Bool) :
    process_secondaries devSt (r :: rest) active connected
      = (if active ∈ r.secondaries then
          if connected then
            if (r.secondaries.filter (fun s => s ≠ active)).isEmpty then
              ((process_secondaries devSt rest active connected).1,
               (if devSt r.device = DeviceState.secondaries then
                  [⟨r.device, DeviceState.activated, Reason.reasonNone⟩]
                else []) ++ (process_secondaries devSt rest active connected).2)
            else
              ({ r with secondaries := r.secondaries.filter (fun s => s ≠ active) }
                  :: (process_secondaries devSt rest active connected).1,
               (process_secondaries devSt rest active connected).2)
          else
            ((process_secondaries devSt rest active connected).1,
             (if devSt r.device = DeviceState.secondaries ∨
                  devSt r.device = DeviceState.activated then
                [⟨r.device, DeviceState.failed, Reason.secondaryConnectionFailed⟩]
              else []) ++ (process_secondaries devSt rest active connected).2)
        else
          (r :: (process_secondaries devSt rest active connected).1,
           (process_secondaries devSt rest active connected).2)) := rfl

theorem process_secondaries_connected_fst (devSt : Nat → DeviceState) (active : Nat) :
    ∀ pending : List SecondaryWait,
      (process_secondaries devSt pending active true).1
        = pending.filterMap (secondariesStepConnected active) := by
  intro pending
  induction pending with
  | nil => rfl
  | cons r rest ih =>
    rw [process_secondaries_cons]
    by_cases hmem : active ∈ r.secondaries
    · rw [if_pos hmem, if_pos rfl]
      cases hemp : (r.secondaries.filter (fun s => s ≠ active)).isEmpty with
      | true =>
        rw [if_pos rfl]
        have hfr : secondariesStepConnected active r = none := by
          unfold secondariesStepConnected
          rw [if_pos hmem, if_pos hemp]
        rw [List.filterMap_cons_none hfr]
        exact ih
      | false =>
        rw [if_neg Bool.false_ne_true]
        have hfr : secondariesStepConnected active r
            = some { r with secondaries := r.secondaries.filter (fun s => s ≠ active) } := by
          unfold secondariesStepConnected
          rw [if_pos hmem, hemp, if_neg Bool.false_ne_true]
        rw [List.filterMap_cons_some hfr]
        exact congrArg (List.cons _) ih
    · rw [if_neg hmem]
      have hfr : secondariesStepConnected active r = some r := by
        unfold secondariesStepConnected
        rw [if_neg hmem]
      rw [List.filterMap_cons_some hfr]
      exact congrArg (List.cons _) ih

theorem process_secondaries_connected_snd (devSt : Nat → DeviceState) (active : Nat) :
    ∀ pending : List SecondaryWait,
      (process_secondaries devSt pending active true).2
        = (pending.filter (secondariesDoneRecord devSt active)).map
            (fun w => ⟨w.device, DeviceState.activated, Reason.reasonNone⟩) := by
  intro pending
  induction pending with
  | nil => rfl
  | cons r rest ih =>
    rw [process_secondaries_cons]
    by_cases hmem : active ∈ r.secondaries
    · rw [if_pos hmem, if_pos rfl]
      cases hemp : (r.secondaries.filter (fun s => s ≠ active)).isEmpty with
      | true =>
        rw [if_pos rfl]
        by_cases hdev : devSt r.device = DeviceState.secondaries
        · rw [if_pos hdev]
          have hp : secondariesDoneRecord devSt active r = true := by
            unfold secondariesDoneRecord
            rw [decide_eq_true hmem, hemp, decide_eq_true hdev]
            rfl
          rw [List.filter_cons_of_pos hp, List.map_cons]
          exact congrArg (List.cons _) ih
        · rw [if_neg hdev]
          have hp : secondariesDoneRecord devSt active r = false := by
            unfold secondariesDoneRecord
            rw [decide_eq_true hmem, hemp, decide_eq_false hdev]
            rfl
          rw [List.filter_cons_of_neg (by rw [hp]; exact Bool.false_ne_true)]
          exact ih
      | false =>
        rw [if_neg Bool.false_ne_true]
        have hp : secondariesDoneRecord devSt active r = false := by
          unfold secondariesDoneRecord
          rw [decide_eq_true hmem, hemp]
          cases decide (devSt r.device = DeviceState.secondaries) <;> rfl
        rw [List.filter_cons_of_neg (by rw [hp]; exact Bool.false_ne_true)]
        exact ih
    · rw [if_neg hmem]
      have hp : secondariesDoneRecord devSt active r = false := by
        unfold secondariesDoneRecord
        rw [decide_eq_false hmem]
        rfl
      rw [List.filter_cons_of_neg (by rw [hp]; exact Bool.false_ne_true)]
      exact ih

theorem process_secondaries_disconnected_fst (devSt : Nat → DeviceState) (active : Nat) :
    ∀ pending : List SecondaryWait,
      (process_secondaries devSt pending active false).1
        = pending.filter (secondariesKeepRecord active) := by
  intro pending
  induction pending with
  | nil => rfl
  | cons r rest ih =>
    rw [process_secondaries_cons]
    by_cases hmem : active ∈ r.secondaries
    · rw [if_pos hmem, if_neg Bool.false_ne_true]
      have hp : secondariesKeepRecord active r = false := by
        unfold secondariesKeepRecord
        exact decide_eq_false (fun hn => hn hmem)
      rw [List.filter_cons_of_neg (by rw [hp]; exact Bool.false_ne_true)]
      exact ih
    · rw [if_neg hmem]
      have hp : secondariesKeepRecord active r = true := by
        unfold secondariesKeepRecord
        exact decide_eq_true hmem
      rw [List.filter_cons_of_pos hp]
      exact congrArg (List.cons _) ih

theorem process_secondaries_disconnected_snd (devSt : Nat → DeviceState) (active : Nat) :
    ∀ pending : List SecondaryWait,
      (process_secondaries devSt pending active false).2
        = (pending.filter (secondariesFailRecord devSt active)).map
            (fun w => ⟨w.device, DeviceState.failed, Reason.secondaryConnectionFailed⟩) := by
  intro pending
  induction pending with
  | nil => rfl
  | cons r rest ih =>
    rw [process_secondaries_cons]
    by_cases hmem : active ∈ r.secondaries
    · rw [if_pos hmem, if_neg Bool.false_ne_true]
      by_cases hdev : devSt r.device = DeviceState.secondaries ∨
          devSt r.device = DeviceState.activated
      · rw [if_pos hdev]
        have hp : secondariesFailRecord devSt active r = true := by
          unfold secondariesFailRecord
          rw [decide_eq_true hmem, decide_eq_true hdev]
          rfl
        rw [List.filter_cons_of_pos hp, List.map_cons]
        exact congrArg (List.cons _) ih
      · rw [if_neg hdev]
        have hp : secondariesFailRecord devSt active r = false := by
          unfold secondariesFailRecord
          rw [decide_eq_true hmem, decide_eq_false hdev]
          rfl
        rw [List.filter_cons_of_neg (by rw [hp]; exact Bool.false_ne_true)]
        exact ih
    · rw [if_neg hmem]
      have hp : secondariesFailRecord devSt active r = false := by
        unfold secondariesFailRecord
        rw [decide_eq_false hmem]
        rfl
      rw [List.filter_cons_of_neg (by rw [hp]; exact Bool.false_ne_true)]
      exact ih

theorem process_secondaries_not_tracked (devSt : Nat → DeviceState) (active : Nat) :
    ∀ (pending : List SecondaryWait) (connected : Bool),
      (∀ r ∈ pending, active ∉ r.secondaries) →
      process_secondaries devSt pending active connected = (pending, []) := by
  intro pending
  induction pending with
  | nil => intro connected _; rfl
  | cons r rest ih =>
    intro connected hall
    have hmem : active ∉ r.secondaries := hall r (List.mem_cons_self r rest)
    have hrest := ih connected (fun x hx => hall x (List.mem_cons_of_mem _ hx))
    rw [process_secondaries_cons, if_neg hmem, hrest]

/-- C6: behaviour of process_secondaries.  On a secondary reaching ACTIVATED
(connected = true): the session is removed from every wait list; a record
whose list thereby empties is deleted, and its device transitions to
ACTIVATED with reason NONE exactly when it is still in SECONDARIES.  On a
secondary reaching DEACTIVATED (connected = false): every record containing
the session is deleted whole, and its device transitions to
FAILED/SECONDARY_CONNECTION_FAILED exactly when it is still in SECONDARIES or
ACTIVATED.  A session present in no wait list causes no change and no
transition. -/
theorem C6_process_secondaries (devSt : Nat → DeviceState) (pending : List SecondaryWait)
    (active : Nat) :
    ((process_secondaries devSt pending active true).1
        = pending.filterMap (secondariesStepConnected active)) ∧
    ((process_secondaries devSt pending active true).2
        = (pending.filter (secondariesDoneRecord devSt active)).map
            (fun w => ⟨w.device, DeviceState.activated, Reason.reasonNone⟩)) ∧
    ((process_secondaries devSt pending active false).1
        = pending.filter (secondariesKeepRecord active)) ∧
    ((process_secondaries devSt pending active false).2
        = (pending.filter (secondariesFailRecord devSt active)).map
            (fun w => ⟨w.device, DeviceState.failed, Reason.secondaryConnectionFailed⟩)) ∧
    (∀ connected : Bool, (∀ r ∈ pending, active ∉ r.secondaries) →
        process_secondaries devSt pending active connected = (pending, [])) :=
  ⟨process_secondaries_connected_fst devSt active pending,
   process_secondaries_connected_snd devSt active pending,
   process_secondaries_disconnected_fst devSt active pending,
   process_secondaries_disconnected_snd devSt active pending,
   fun connected hall => process_secondaries_not_tracked devSt active pending connected hall⟩

/-- Witness for C6 at concrete inputs: a single record for device 3 waiting
only on session 7, with device 3 in SECONDARIES: session 7 reaching
ACTIVATED empties and deletes the record and queues ACTIVATED/NONE; session
7 reaching DEACTIVATED deletes the record and queues
FAILED/SECONDARY_CONNECTION_FAILED; untracked session 9 changes nothing. -/
theorem C6_process_secondaries_witness :
    (process_secondaries (fun _ => DeviceState.secondaries) [⟨3, [7]⟩] 7 true
        = ([], [⟨3, DeviceState.activated, Reason.reasonNone⟩])) ∧
    (process_secondaries (fun _ => DeviceState.secondaries) [⟨3, [7]⟩] 7 false
        = ([], [⟨3, DeviceState.failed, Reason.secondaryConnectionFailed⟩])) ∧
    (process_secondaries (fun _ => DeviceState.secondaries) [⟨3, [7]⟩] 9 true
        = ([⟨3, [7]⟩], [])) := by
  have h7 := C6_process_secondaries (fun _ => DeviceState.secondaries) [⟨3, [7]⟩] 7
  have h9 := C6_process_secondaries (fun _ => DeviceState.secondaries) [⟨3, [7]⟩] 9
  refine ⟨?_, ?_, ?_⟩
  · exact Prod.ext (h7.1.trans (by decide)) (h7.2.1.trans (by decide))
  · exact Prod.ext (h7.2.2.1.trans (by decide)) (h7.2.2.2.1.trans (by decide))
  · exact h9.2.2.2.2 true (by decide)

/-- C7 fails as stated: a candidate equal to cur_hostname does not mutate the
engine state, but _set_hostname still falls through to the kernel-hostname
comparison, and when the kernel hostname has diverged (here "bar" while
cur_hostname is "foo") the transient-hostname setter IS invoked, contradicting
"does not invoke the settings layer's transient-hostname setter". -/
theorem C7_counterexample :
    (_set_hostname ⟨none, some "foo", true, none⟩ (some "foo") (some "bar")).2
      = [HostAction.setTransientHostname "foo"] := by
  decide

/-- C7 (amended): a candidate equal to the current cur_hostname, or a
first-ever candidate equal to orig_hostname while hostname_changed is still
false, leaves the engine state unchanged except for the documented clearing
of lookup_addr on a non-NULL candidate, and performs no DNS-manager hostname
call; the transient-hostname setter is invoked only when gethostname fails
or reports a name different from the effective name (i.e. only to re-assert
the name against a diverged kernel hostname). -/
theorem C7_hostname_noop (st : HostnameState) (new kernel : Option String)
    (hyp : st.curHostname = new ∨
      (st.origHostname.isSome = true ∧ st.hostnameChanged = false ∧ st.origHostname = new)) :
    (_set_hostname st new kernel).1
        = { st with lookupAddr := if new.isSome = true then none else st.lookupAddr } ∧
    (_set_hostname st new kernel).2
        = (if kernel = some (effectiveName new) then []
           else [HostAction.setTransientHostname (effectiveName new)]) := by
  have hclear : set_hostname_clear_lookup st new
      = { st with lookupAddr := if new.isSome = true then none else st.lookupAddr } := by
    unfold set_hostname_clear_lookup
    by_cases hn : new.isSome = true
    · rw [if_pos hn, if_pos hn]
    · rw [if_neg hn, if_neg hn]
  have ho : (set_hostname_clear_lookup st new).origHostname = st.origHostname := by
    unfold set_hostname_clear_lookup
    split
    · rfl
    · rfl
  have hc : (set_hostname_clear_lookup st new).curHostname = st.curHostname := by
    unfold set_hostname_clear_lookup
    split
    · rfl
    · rfl
  have hch : (set_hostname_clear_lookup st new).hostnameChanged = st.hostnameChanged := by
    unfold set_hostname_clear_lookup
    split
    · rfl
    · rfl
  have hupd : set_hostname_update (set_hostname_clear_lookup st new) new
      = (set_hostname_clear_lookup st new, []) := by
    unfold set_hostname_update
    rcases hyp with hcur | ⟨h1, h2, h3⟩
    · by_cases hfirst : (set_hostname_clear_lookup st new).origHostname.isSome = true
          ∧ (set_hostname_clear_lookup st new).hostnameChanged = false
          ∧ (set_hostname_clear_lookup st new).origHostname = new
      · rw [if_pos hfirst]
      · rw [if_neg hfirst, if_pos (by rw [hc]; exact hcur)]
    · rw [if_pos ⟨by rw [ho]; exact h1, by rw [hch]; exact h2, by rw [ho]; exact h3⟩]
  have hmain : _set_hostname st new kernel
      = ({ st with lookupAddr := if new.isSome = true then none else st.lookupAddr },
         if kernel = some (effectiveName new) then []
         else [HostAction.setTransientHostname (effectiveName new)]) := by
    cases kernel with
    | none =>
      unfold _set_hostname
      dsimp only
      rw [hupd]
      have hiff : ¬ ((none : Option String) = some (effectiveName new)) :=
        fun hcn => Option.noConfusion hcn
      rw [if_neg hiff]
      exact Prod.ext hclear rfl
    | some old =>
      unfold _set_hostname
      dsimp only
      by_cases hk : effectiveName new = old
      · rw [if_pos hk, hupd]
        have hiff : some old = some (effectiveName new) := by rw [hk]
        rw [if_pos hiff]
        exact Prod.ext hclear rfl
      · rw [if_neg hk, hupd]
        have hiff : ¬ (some old = some (effectiveName new)) :=
          fun hcn => hk (Option.some.inj hcn).symm
        rw [if_neg hiff]
        exact Prod.ext hclear rfl
  exact ⟨by rw [hmain], by rw [hmain]⟩

/-- Witness for C7 at a concrete input: first-ever attempt with the candidate
equal to orig_hostname while the kernel already reports that name: the
lookup address is cleared, nothing else changes and no call is made. -/
theorem C7_hostname_noop_witness :
    (_set_hostname ⟨some "boot", none, false, some 5⟩ (some "boot") (some "boot")).1
        = ⟨some "boot", none, false, none⟩ ∧
    (_set_hostname ⟨some "boot", none, false, some 5⟩ (some "boot") (some "boot")).2 = [] := by
  have hh := C7_hostname_noop ⟨some "boot", none, false, some 5⟩ (some "boot") (some "boot")
      (Or.inr ⟨rfl, rfl, rfl⟩)
  exact ⟨hh.1.trans (by decide), hh.2.trans (by decide)⟩

theorem update_system_hostname_auto_dhcp4 (h : List Char) (addrs : List Nat)
    (best6 : Option DevView) (orig : Option String) :
    update_system_hostname_auto (some ⟨some h, addrs⟩) best6 orig
      = (if h.isEmpty then (hostname_step34 (some ⟨some h, addrs⟩) best6 orig, false)
         else
           match h.dropWhile isAsciiSpace with
           | [] => (hostname_step34 (some ⟨some h, addrs⟩) best6 orig, true)
           | c :: cs => (HostnameDecision.fromDhcp4 (c :: cs), false)) := rfl

theorem update_system_hostname_auto_dhcp6 (h : List Char) (addrs : List Nat)
    (orig : Option String) :
    update_system_hostname_auto none (some ⟨some h, addrs⟩) orig
      = (if h.isEmpty then (hostname_step34 none (some ⟨some h, addrs⟩) orig, false)
         else
           match h.dropWhile isAsciiSpace with
           | [] => (hostname_step34 none (some ⟨some h, addrs⟩) orig, true)
           | c :: cs => (HostnameDecision.fromDhcp6 (c :: cs), false)) := rfl

/-- C8 fails as stated: an empty DHCP host_name value is rejected, but
silently (the strlen guard skips it before the whitespace scan), so no
warning is logged; the ladder still proceeds (here to the startup
hostname).  The claim requires a warning for the empty value.  The same
holds in the else-DHCPv6 step, taken when no best IPv4 device exists
(second conjunct). -/
theorem C8_counterexample :
    (update_system_hostname none (fun _ => false) (some ⟨some [], []⟩) none (some "boot")
      = (HostnameDecision.fromStartup "boot", false)) ∧
    (update_system_hostname none (fun _ => false) none (some ⟨some [], []⟩) (some "boot")
      = (HostnameDecision.fromStartup "boot", false)) :=
  ⟨rfl, rfl⟩

/-- C8 (amended): in the DHCP rung — the DHCPv4 host_name option on the best
IPv4 device, else (when no best IPv4 device exists) the DHCPv6 host_name
option on the best IPv6 device — an empty host_name value is rejected
silently and an all-whitespace (nonempty) value is rejected with a warning;
in both cases the ladder proceeds to rungs 3-4 (the startup hostname when
present, else reverse-DNS of the first address, else the no-IP-config
fallback); a value with leading whitespace is applied with exactly the
leading whitespace trimmed (from DHCPv4 resp. DHCPv6).  Conjuncts 1-3 settle
the DHCPv4 step, conjuncts 4-6 the DHCPv6 step, conjuncts 7-8 the rungs the
ladder proceeds to.  (The configured-hostname rung is assumed to decline:
hconf.) -/
theorem C8_dhcp_hostname_ladder (configured : Option String) (isSpecific : String → Bool)
    (addrs : List Nat) (best6 : Option DevView) (orig : Option String) (h : List Char)
    (hconf : ∀ c, configured = some c → isSpecific c = false) :
    (h = [] →
      update_system_hostname configured isSpecific (some ⟨some h, addrs⟩) best6 orig
        = (hostname_step34 (some ⟨some h, addrs⟩) best6 orig, false)) ∧
    (h ≠ [] → h.dropWhile isAsciiSpace = [] →
      update_system_hostname configured isSpecific (some ⟨some h, addrs⟩) best6 orig
        = (hostname_step34 (some ⟨some h, addrs⟩) best6 orig, true)) ∧
    (∀ c cs, h.dropWhile isAsciiSpace = c :: cs →
      update_system_hostname configured isSpecific (some ⟨some h, addrs⟩) best6 orig
        = (HostnameDecision.fromDhcp4 (c :: cs), false)) ∧
    (h = [] →
      update_system_hostname configured isSpecific none (some ⟨some h, addrs⟩) orig
        = (hostname_step34 none (some ⟨some h, addrs⟩) orig, false)) ∧
    (h ≠ [] → h.dropWhile isAsciiSpace = [] →
      update_system_hostname configured isSpecific none (some ⟨some h, addrs⟩) orig
        = (hostname_step34 none (some ⟨some h, addrs⟩) orig, true)) ∧
    (∀ c cs, h.dropWhile isAsciiSpace = c :: cs →
      update_system_hostname configured isSpecific none (some ⟨some h, addrs⟩) orig
        = (HostnameDecision.fromDhcp6 (c :: cs), false)) ∧
    (∀ b4 b6 o, hostname_step34 b4 b6 (some o) = HostnameDecision.fromStartup o) ∧
    (∀ b4 b6 a, firstAddr b4 = some a →
      hostname_step34 b4 b6 none = HostnameDecision.startLookup a) := by
  have hred : ∀ b4 b6, update_system_hostname configured isSpecific b4 b6 orig
      = update_system_hostname_auto b4 b6 orig := by
    intro b4 b6
    cases configured with
    | none => rfl
    | some c =>
      unfold update_system_hostname
      dsimp only
      rw [hconf c rfl, if_neg Bool.false_ne_true]
  refine ⟨?_, ?_, ?_, ?_, ?_, ?_, ?_, ?_⟩
  · intro hh
    subst hh
    rw [hred, update_system_hostname_auto_dhcp4]
    rfl
  · intro hne hdrop
    have hie : h.isEmpty = false := by
      cases h with
      | nil => exact absurd rfl hne
      | cons c cs => rfl
    rw [hred, update_system_hostname_auto_dhcp4, hie, if_neg Bool.false_ne_true, hdrop]
  · intro c cs hdrop
    have hie : h.isEmpty = false := by
      cases h with
      | nil => exact absurd hdrop (Ne.symm (List.cons_ne_nil c cs))
      | cons x xs => rfl
    rw [hred, update_system_hostname_auto_dhcp4, hie, if_neg Bool.false_ne_true, hdrop]
  · intro hh
    subst hh
    rw [hred, update_system_hostname_auto_dhcp6]
    rfl
  · intro hne hdrop
    have hie : h.isEmpty = false := by
      cases h with
      | nil => exact absurd rfl hne
      | cons c cs => rfl
    rw [hred, update_system_hostname_auto_dhcp6, hie, if_neg Bool.false_ne_true, hdrop]
  · intro c cs hdrop
    have hie : h.isEmpty = false := by
      cases h with
      | nil => exact absurd hdrop (Ne.symm (List.cons_ne_nil c cs))
      | cons x xs => rfl
    rw [hred, update_system_hostname_auto_dhcp6, hie, if_neg Bool.false_ne_true, hdrop]
  · intro b4 b6 o
    rfl
  · intro b4 b6 a ha
    unfold hostname_step34
    rw [ha]

/-- Witness for C8 at concrete inputs: DHCP host_name " x" on the best IPv4
device (first conjunct) and, with no best IPv4 device, on the best IPv6
device (second conjunct), no configured hostname: the leading space is
trimmed and the value is applied from DHCPv4 resp. DHCPv6 with no warning. -/
theorem C8_dhcp_hostname_ladder_witness :
    (update_system_hostname none (fun _ => false) (some ⟨some [' ', 'x'], []⟩) none (some "up")
      = (HostnameDecision.fromDhcp4 ['x'], false)) ∧
    (update_system_hostname none (fun _ => false) none (some ⟨some [' ', 'x'], []⟩) (some "up")
      = (HostnameDecision.fromDhcp6 ['x'], false)) := by
  have hh := C8_dhcp_hostname_ladder none (fun _ => false) [] none (some "up") [' ', 'x']
      (fun c hc => Option.noConfusion hc)
  exact ⟨hh.2.2.1 'x' [] (by decide), hh.2.2.2.2.2.1 'x' [] (by decide)⟩

/-- C9: when a device enters SECONDARIES with no known settings connection,
or with a configuration declaring zero secondary UUIDs, the branch queues the
device straight to ACTIVATED with reason NONE, runs no routing/DNS update and
never calls activate_secondary_connections (hence no SecondaryWait record is
created). -/
theorem C9_secondaries_empty (conn : Option ConnView) (activateOk : Bool)
    (hc : conn = none ∨ ∃ c, conn = some c ∧ c.secondaries = []) :
    device_state_changed_secondaries conn activateOk
      = ⟨false, some (DeviceState.activated, Reason.reasonNone), false⟩ := by
  rcases hc with hnone | ⟨c, hsome, hempty⟩
  · rw [hnone]
    rfl
  · rw [hsome]
    unfold device_state_changed_secondaries
    dsimp only
    have hn : ¬ (0 < c.secondaries.length) := by
      rw [hempty]
      exact Nat.lt_irrefl 0
    rw [if_neg hn]

/-- Witness for C9 at a concrete input: a configuration with an empty list
of secondary UUIDs. -/
theorem C9_secondaries_empty_witness :
    device_state_changed_secondaries (some ⟨[]⟩) true
      = ⟨false, some (DeviceState.activated, Reason.reasonNone), false⟩ :=
  C9_secondaries_empty (some ⟨[]⟩) true (Or.inr ⟨⟨[]⟩, rfl, rfl⟩)

theorem deactivate_if_active_cons (deactivateOk : Nat → Bool) (ac : ACView)
    (rest : List ACView) (conn : Nat) :
    _deactivate_if_active deactivateOk (ac :: rest) conn
      = (if ac.settingsConn = conn ∧ ac.state.code ≤ 2 then
          ((ac.acId, Reason.connectionRemoved)
              :: (_deactivate_if_active deactivateOk rest conn).1,
           if deactivateOk ac.acId then (_deactivate_if_active deactivateOk rest conn).2
           else ac.acId :: (_deactivate_if_active deactivateOk rest conn).2)
        else _deactivate_if_active deactivateOk rest conn) := rfl

theorem deactivate_if_active_requests (deactivateOk : Nat → Bool) (conn : Nat) :
    ∀ active : List ACView,
      (_deactivate_if_active deactivateOk active conn).1
        = (active.filter (deactivateMatch conn)).map
            (fun ac => (ac.acId, Reason.connectionRemoved)) := by
  intro active
  induction active with
  | nil => rfl
  | cons ac rest ih =>
    rw [deactivate_if_active_cons]
    by_cases hcm : ac.settingsConn = conn ∧ ac.state.code ≤ 2
    · have hp : deactivateMatch conn ac = true := by
        unfold deactivateMatch
        exact decide_eq_true hcm
      rw [if_pos hcm, List.filter_cons_of_pos hp, List.map_cons]
      exact congrArg (List.cons _) ih
    · have hp : deactivateMatch conn ac = false := by
        unfold deactivateMatch
        exact decide_eq_false hcm
      rw [if_neg hcm, List.filter_cons_of_neg (by rw [hp]; exact Bool.false_ne_true)]
      exact ih

/-- C10: every active session whose settings connection is the removed one
and whose state is at most ACTIVATED receives a deactivate request with
reason CONNECTION_REMOVED; the set of requests is independent of which
deactivate calls fail (failures are only logged, the walk continues); a
visibility change to visible schedules the activate-all scan instead, and a
change to not-visible runs exactly the connection-removed walk. -/
theorem C10_connection_removed_walk (deactivateOk : Nat → Bool) (active : List ACView)
    (conn : Nat) :
    ((connection_removed deactivateOk active conn).1
        = (active.filter (deactivateMatch conn)).map
            (fun ac => (ac.acId, Reason.connectionRemoved))) ∧
    (∀ ok2 : Nat → Bool,
        (connection_removed deactivateOk active conn).1
          = (connection_removed ok2 active conn).1) ∧
    (connection_visibility_changed deactivateOk active conn true
        = VisibilityAction.scheduleActivateAll) ∧
    (connection_visibility_changed deactivateOk active conn false
        = VisibilityAction.deactivate (connection_removed deactivateOk active conn).1
            (connection_removed deactivateOk active conn).2) := by
  refine ⟨deactivate_if_active_requests deactivateOk conn active, ?_, rfl, rfl⟩
  intro ok2
  exact (deactivate_if_active_requests deactivateOk conn active).trans
    (deactivate_if_active_requests ok2 conn active).symm

end NMPolicy
